import Mathlib

/-!
Verification of the statistical-aggregation engine in
src/rust_extensions/src/lib.rs against its specification.

Shallow-embedding conventions used throughout this file:
  - f64 values are modelled exactly: by the rationals wherever the code only
    adds, subtracts, multiplies, divides and compares, and by the reals where
    a square root is taken (standard deviation, the Pearson denominator, the
    confidence interval).  Decimal literals of the source are idealised as the
    rationals they denote.
  - u32 arithmetic wraps modulo 2 ^ 32 (release-mode semantics of the
    deployed extension); the wrap is written out explicitly.
  - Rust str::split is embedded as a structurally recursive split on the
    character list of the string, and the anchored regular expression of the
    time parser as a total matcher over the same split (a digit is never a
    colon, so a match is exactly a three-way colon split with digit fields of
    the required widths); digits are idealised as ASCII digits.
  - the iteration order of a Rust HashMap is not a function of the map value:
    functions that enumerate a map receive the enumeration as an explicit
    association list, so that order-(in)dependence can be stated.
  - the thread pool of the timer manager is abstracted by an oracle: the list
    of per-worker elapsed times in completion order; the join barrier of the
    source (every spawned handle is joined before the shared state is read)
    is expressed by theorems quantifying over every completion schedule that
    contains exactly one entry per spawned worker.
-/

namespace AuditorHelper

/-! ## Character and string parsing -/

/-- Numeric value of a decimal digit character. -/
def digitVal (c : Char) : ℕ := c.toNat - 48

/-- Decimal value of a digit string, read left to right. -/
def decimalValue (s : List Char) : ℕ :=
  s.foldl (fun acc c => acc * 10 + digitVal c) 0

/-- Embedding of Rust str::split for a one-character separator: the list of
fields between separators, empty fields preserved, as a structural recursion
on the character list. -/
def splitOnChar (sep : Char) : List Char → List (List Char)
  | [] => [[]]
  | c :: cs =>
    if c = sep then [] :: splitOnChar sep cs
    else
      match splitOnChar sep cs with
      | [] => [[c]]
      | p :: ps => (c :: p) :: ps

/-- Embedding of u32::from_str as invoked by str::parse in lib.rs: an
optional leading plus sign, then one or more ASCII digits, with the value
required to fit in 32 bits; everything else is a parse error. -/
def parseU32 (s : List Char) : Option ℕ :=
  match s with
  | [] => none
  | c :: cs =>
    let ds := if c = '+' then cs else c :: cs
    if ds.isEmpty then none
    else if ds.all Char.isDigit then
      if decimalValue ds < 2 ^ 32 then some (decimalValue ds) else none
    else none

/-- Embedding of parse_time_string_fast (lib.rs lines 585-595): split on the
colon; with exactly three fields, parse each field as u32, a malformed field
defaulting to zero, and combine with wrapping u32 arithmetic; any other field
count yields zero. -/
def parse_time_string_fast (time_str : String) : ℕ :=
  match splitOnChar ':' time_str.data with
  | [h, m, s] =>
    ((parseU32 h).getD 0 * 3600 + (parseU32 m).getD 0 * 60 + (parseU32 s).getD 0) % 2 ^ 32
  | _ => 0

/-- Total matcher embedding the anchored pattern of parse_time_to_seconds_batch
(one or two digits, colon, two digits, colon, two digits).  A digit is never a
colon, so a string matches exactly when splitting on colons yields three
all-digit fields of those widths; on a match the three capture groups are
returned. -/
def timeMatch (time_str : String) : Option (List Char × List Char × List Char) :=
  match splitOnChar ':' time_str.data with
  | [h, m, s] =>
    if 1 ≤ h.length ∧ h.length ≤ 2 ∧ h.all Char.isDigit ∧
       m.length = 2 ∧ m.all Char.isDigit ∧
       s.length = 2 ∧ s.all Char.isDigit
    then some (h, m, s) else none
  | _ => none

/-- Embedding of the per-string body of parse_time_to_seconds_batch (lib.rs
lines 348-366): on a regex match, parse the three captures (each capture that
failed to parse would default to zero) and combine; with no match the whole
string yields zero. -/
def parse_time_to_seconds (time_str : String) : ℕ :=
  match timeMatch time_str with
  | some (h, m, s) =>
    ((parseU32 h).getD 0 * 3600 + (parseU32 m).getD 0 * 60 + (parseU32 s).getD 0) % 2 ^ 32
  | none => 0

/-- The batch entry point maps the regex-based parser over the input list. -/
def parse_time_to_seconds_batch (time_strings : List String) : List ℕ :=
  time_strings.map parse_time_to_seconds

/-! ## Task batch processing (lib.rs lines 373-455) -/

/-- Per-record result of the parallel map phase of process_tasks_batch. -/
structure TaskResult where
  duration_seconds : ℕ
  earnings : ℚ
  score : ℚ
  is_fail : Bool
  is_bonus : Bool
deriving DecidableEq

/-- Aggregate returned by process_tasks_batch. -/
structure BatchAggregate where
  total_seconds : ℕ
  total_earnings : ℚ
  average_score : ℚ
  fail_count : ℕ
  bonus_tasks_count : ℕ
  task_count : ℕ
  fail_rate : ℚ
deriving DecidableEq

/-- The per-record closure of process_tasks_batch: parse the duration with the
fast parser, classify bonus and fail from the score, and price the record. -/
def processTask (global_payrate bonus_payrate : ℚ) (bonus_enabled : Bool)
    (duration_str : String) (score : ℚ) : TaskResult :=
  let duration_seconds := parse_time_string_fast duration_str
  let is_bonus := bonus_enabled && decide (3 ≤ score)
  let earnings :=
    if is_bonus then ((duration_seconds : ℚ) / 3600) * bonus_payrate
    else ((duration_seconds : ℚ) / 3600) * global_payrate
  { duration_seconds := duration_seconds, earnings := earnings, score := score,
    is_fail := decide (score < 3), is_bonus := is_bonus }

/-- Accumulator of the sequential reduction loop of process_tasks_batch. -/
structure TaskAcc where
  seconds : ℕ
  earnings : ℚ
  score : ℚ
  fails : ℕ
  bonuses : ℕ
deriving DecidableEq

/-- One step of the reduction loop of process_tasks_batch. -/
def taskStep (acc : TaskAcc) (r : TaskResult) : TaskAcc :=
  { seconds := acc.seconds + r.duration_seconds,
    earnings := acc.earnings + r.earnings,
    score := acc.score + r.score,
    fails := acc.fails + (if r.is_fail then 1 else 0),
    bonuses := acc.bonuses + (if r.is_bonus then 1 else 0) }

/-- Embedding of process_tasks_batch (lib.rs lines 373-455): fail fast on a
length mismatch, short-circuit the empty batch to an all-zero aggregate, and
otherwise map the per-record closure over the zipped inputs and reduce. -/
def process_tasks_batch (duration_strings : List String) (scores : List ℚ)
    (global_payrate bonus_payrate : ℚ) (bonus_enabled : Bool) :
    Except String BatchAggregate :=
  if duration_strings.length ≠ scores.length then
    .error ("Duration strings and scores must have the same length")
  else
    let task_count := duration_strings.length
    if task_count = 0 then
      .ok { total_seconds := 0, total_earnings := 0, average_score := 0,
            fail_count := 0, bonus_tasks_count := 0, task_count := 0, fail_rate := 0 }
    else
      let results := (duration_strings.zip scores).map
        (fun p => processTask global_payrate bonus_payrate bonus_enabled p.1 p.2)
      let agg := results.foldl taskStep { seconds := 0, earnings := 0, score := 0, fails := 0, bonuses := 0 }
      .ok { total_seconds := agg.seconds, total_earnings := agg.earnings,
            average_score := if 0 < task_count then agg.score / (task_count : ℚ) else 0,
            fail_count := agg.fails, bonus_tasks_count := agg.bonuses,
            task_count := task_count,
            fail_rate := if 0 < task_count then ((agg.fails : ℚ) / (task_count : ℚ)) * 100 else 0 }

/-! ## Statistical primitives (lib.rs lines 14-127) -/

/-- Embedding of calculate_mean: zero on the empty sample, else the arithmetic
mean.  Polymorphic so that the same definition serves the rational and the
real models. -/
def calculate_mean {α : Type} [DivisionRing α] (data : List α) : α :=
  if data.isEmpty then 0 else data.sum / (data.length : α)

/-- Embedding of calculate_std_dev: zero for samples of length below two, else
the square root of the sample variance (divisor n - 1). -/
noncomputable def calculate_std_dev (data : List ℝ) : ℝ :=
  if data.length < 2 then 0
  else Real.sqrt (((data.map (fun x => (x - calculate_mean data) ^ 2)).sum) / ((data.length - 1 : ℕ) : ℝ))

/-- Embedding of calculate_confidence_interval (lib.rs lines 84-127): the
degenerate pair for samples of length below two, else the two-sided interval
with the bucketed critical value chosen by the branch on degrees_freedom. -/
noncomputable def calculate_confidence_interval (data : List ℝ) (confidence_level : ℝ) : ℝ × ℝ :=
  if data.length < 2 then (0, 0)
  else
    let mean := calculate_mean data
    let std_dev := calculate_std_dev data
    let n : ℝ := data.length
    let degrees_freedom := n - 1
    let t_value :=
      if 30 < degrees_freedom then
        if 99 / 100 ≤ confidence_level then 2576 / 1000
        else if 95 / 100 ≤ confidence_level then 196 / 100
        else if 9 / 10 ≤ confidence_level then 1645 / 1000
        else 196 / 100
      else
        if 99 / 100 ≤ confidence_level then 3
        else if 95 / 100 ≤ confidence_level then 5 / 2
        else if 9 / 10 ≤ confidence_level then 2
        else 5 / 2
    let margin_error := t_value * (std_dev / Real.sqrt n)
    (mean - margin_error, mean + margin_error)

/-- The critical-value selection exactly as the code makes it: keyed by the
degrees of freedom, the branch taken when n - 1 exceeds 30. -/
noncomputable def criticalValueCode (n : ℕ) (level : ℝ) : ℝ :=
  if 30 < (n : ℝ) - 1 then
    if 99 / 100 ≤ level then 2576 / 1000
    else if 95 / 100 ≤ level then 196 / 100
    else if 9 / 10 ≤ level then 1645 / 1000
    else 196 / 100
  else
    if 99 / 100 ≤ level then 3
    else if 95 / 100 ≤ level then 5 / 2
    else if 9 / 10 ≤ level then 2
    else 5 / 2

/-- The critical-value selection as the claim words it, keyed by the sample
size itself: the normal-approximation table when the sample size exceeds 30,
the coarser table otherwise.  Written from the words of the claim, for
comparison with the selection the code makes. -/
noncomputable def criticalValueSpec (n : ℕ) (level : ℝ) : ℝ :=
  if 30 < n then
    if 99 / 100 ≤ level then 2576 / 1000
    else if 95 / 100 ≤ level then 196 / 100
    else if 9 / 10 ≤ level then 1645 / 1000
    else 196 / 100
  else
    if 99 / 100 ≤ level then 3
    else if 95 / 100 ≤ level then 5 / 2
    else if 9 / 10 ≤ level then 2
    else 5 / 2

/-- Machine epsilon of f64, the threshold of the degenerate-denominator checks. -/
noncomputable def epsF64 : ℝ := 1 / 2 ^ 52

/-- Embedding of calculate_correlation_coefficient (lib.rs lines 15-35):
zero on mismatched or short inputs, the single-pass Pearson coefficient
otherwise, with a denominator within machine epsilon of zero degenerating
to zero. -/
noncomputable def calculate_correlation_coefficient (x y : List ℝ) : ℝ :=
  if x.length ≠ y.length ∨ x.length < 2 then 0
  else
    let n : ℝ := x.length
    let sum_x := x.sum
    let sum_y := y.sum
    let sum_xy := (List.zipWith (fun a b => a * b) x y).sum
    let sum_x_sq := (x.map (fun a => a * a)).sum
    let sum_y_sq := (y.map (fun a => a * a)).sum
    let numerator := n * sum_xy - sum_x * sum_y
    let denominator := Real.sqrt ((n * sum_x_sq - sum_x * sum_x) * (n * sum_y_sq - sum_y * sum_y))
    if |denominator| < epsF64 then 0 else numerator / denominator

/-! ## Batch correlations (lib.rs lines 201-249) -/

/-- All index pairs i < j of a list, in the order of the double loop of
calculate_batch_correlations. -/
def allPairs {α : Type} : List α → List (α × α)
  | [] => []
  | x :: xs => xs.map (fun y => (x, y)) ++ allPairs xs

/-- Embedding of PyDict set_item on an insertion-ordered dictionary: an
existing key keeps its position and gets the new value, a new key is appended. -/
def dictInsert {β : Type} : List (String × β) → String → β → List (String × β)
  | [], k, v => [(k, v)]
  | (k0, v0) :: rest, k, v =>
    if k0 = k then (k0, v) :: rest else (k0, v0) :: dictInsert rest k v

/-- The result key of one variable pair. -/
def joinKey (a b : String) : String := a ++ "_" ++ b

/-- Embedding of calculate_batch_correlations (lib.rs lines 201-249).  The
entries list is the iteration order in which the Rust HashMap enumerates the
(deduplicated) input mapping; for every index pair i < j a correlation is
computed and written into the result dictionary under the joined key. -/
noncomputable def calculate_batch_correlations (entries : List (String × List ℝ)) :
    List (String × ℝ) :=
  (allPairs entries).foldl
    (fun dict pq => dictInsert dict (joinKey pq.1.1 pq.2.1)
      (calculate_correlation_coefficient pq.1.2 pq.2.2)) []

/-- Orientation-free observation of one pair: the two names in nondecreasing
order together with the correlation of the two samples. -/
noncomputable def pairObs (p q : String × List ℝ) : (String × String) × ℝ :=
  (if p.1 ≤ q.1 then (p.1, q.1) else (q.1, p.1),
   calculate_correlation_coefficient p.2 q.2)

/-! ## Moving average and trend analysis (lib.rs lines 256-341) -/

/-- Embedding of calculate_moving_average: empty when the window is zero or
longer than the data, else the mean of every window of the given size. -/
def calculate_moving_average (data : List ℚ) (window_size : ℕ) : List ℚ :=
  if data.length < window_size ∨ window_size = 0 then []
  else (List.range (data.length - window_size + 1)).map
    (fun i => calculate_mean ((data.drop i).take window_size))

/-- Machine epsilon of f64 inside the rational model. -/
def epsF64Q : ℚ := 1 / 2 ^ 52

/-- Result of calculate_trend_analysis. -/
structure TrendResult where
  slope : ℚ
  intercept : ℚ
  r_squared : ℚ
  trend_line : List ℚ
deriving DecidableEq

/-- Embedding of calculate_trend_analysis (lib.rs lines 280-341): none on
mismatched or short inputs, else least squares with the degenerate checks of
the code. -/
def calculate_trend_analysis (x_data y_data : List ℚ) : Option TrendResult :=
  if x_data.length ≠ y_data.length ∨ x_data.length < 2 then none
  else
    let n : ℚ := x_data.length
    let sum_x := x_data.sum
    let sum_y := y_data.sum
    let sum_xy := (List.zipWith (fun a b => a * b) x_data y_data).sum
    let sum_x_sq := (x_data.map (fun a => a * a)).sum
    let denominator := n * sum_x_sq - sum_x * sum_x
    let slope := if |denominator| < epsF64Q then 0 else (n * sum_xy - sum_x * sum_y) / denominator
    let intercept := (sum_y - slope * sum_x) / n
    let y_mean := calculate_mean y_data
    let ss_tot := (y_data.map (fun v => (v - y_mean) ^ 2)).sum
    let ss_res := (List.zipWith (fun xv yv => (yv - (slope * xv + intercept)) ^ 2) x_data y_data).sum
    let r_squared := if |ss_tot| < epsF64Q then 0 else 1 - ss_res / ss_tot
    let trend_line := x_data.map (fun xv => slope * xv + intercept)
    some { slope := slope, intercept := intercept, r_squared := r_squared, trend_line := trend_line }

/-! ## Statistical summary (lib.rs lines 134-194) -/

/-- Result of calculate_statistical_summary.  The standard deviation is the
one real-valued field (a square root); every other field stays rational. -/
structure StatSummary where
  mean : ℚ
  median : ℚ
  std_dev : ℝ
  min : ℚ
  max : ℚ
  q1 : ℚ
  q3 : ℚ
  iqr : ℚ
  outliers : List ℚ
  outlier_count : ℕ
  sample_size : ℕ

/-- Embedding of calculate_statistical_summary (lib.rs lines 134-194): none
for the empty sample (the Rust function returns an empty dictionary), else
median and quartiles from a stable sort (a total order admits exactly one
sorted arrangement, so insertion sort gives the same list as the source sort),
with outliers filtered from the unsorted original sample. -/
noncomputable def calculate_statistical_summary (data : List ℚ) : Option StatSummary :=
  if data.isEmpty then none
  else
    let sorted_data := List.insertionSort (fun a b => a ≤ b) data
    let mean := calculate_mean data
    let std_dev := calculate_std_dev (data.map (fun q => (q : ℝ)))
    let min_val := (sorted_data.head?).getD 0
    let max_val := (sorted_data.getLast?).getD 0
    let n := sorted_data.length
    let median :=
      if n % 2 = 0 then (sorted_data.getD (n / 2 - 1) 0 + sorted_data.getD (n / 2) 0) / 2
      else sorted_data.getD (n / 2) 0
    let q1_idx := n / 4
    let q3_idx := 3 * n / 4
    let q1 := (sorted_data.get? q1_idx).getD min_val
    let q3 := (sorted_data.get? q3_idx).getD max_val
    let iqr := q3 - q1
    let lower_fence := q1 - 3 / 2 * iqr
    let upper_fence := q3 + 3 / 2 * iqr
    let outliers := data.filter (fun x => x < lower_fence ∨ upper_fence < x)
    some { mean := mean, median := median, std_dev := std_dev,
           min := min_val, max := max_val, q1 := q1, q3 := q3, iqr := iqr,
           outliers := outliers, outlier_count := outliers.length, sample_size := n }

/-! ## Aggregated metrics (lib.rs lines 500-672) -/

/-- Per-sequence statistics of calculate_stats_parallel. -/
structure ParallelStats where
  mean : ℚ
  median : ℚ
  std_dev : ℝ
  min : ℚ
  max : ℚ
  sum : ℚ

/-- Embedding of calculate_stats_parallel (lib.rs lines 597-625). -/
noncomputable def calculate_stats_parallel (data : List ℚ) : ParallelStats :=
  if data.isEmpty then
    { mean := 0, median := 0, std_dev := 0, min := 0, max := 0, sum := 0 }
  else
    let sum := data.sum
    let mean := sum / (data.length : ℚ)
    let sorted_data := List.insertionSort (fun a b => a ≤ b) data
    let median :=
      if sorted_data.length % 2 = 0 then
        (sorted_data.getD (sorted_data.length / 2 - 1) 0 + sorted_data.getD (sorted_data.length / 2) 0) / 2
      else sorted_data.getD (sorted_data.length / 2) 0
    let variance := (data.map (fun x => (x - mean) ^ 2)).sum / ((max (data.length - 1) 1 : ℕ) : ℚ)
    let std_dev := Real.sqrt ((variance : ℚ) : ℝ)
    { mean := mean, median := median, std_dev := std_dev,
      min := sorted_data.getD 0 0, max := sorted_data.getD (sorted_data.length - 1) 0, sum := sum }

/-- Derived efficiency ratios of calculate_efficiency_metrics. -/
structure EfficiencyMetrics where
  earnings_per_hour : ℚ
  quality_efficiency : ℚ
  time_efficiency : ℚ
deriving DecidableEq

/-- Embedding of calculate_efficiency_metrics (lib.rs lines 627-672).  Note
that earnings_per_hour divides by the raw duration total, with no conversion
of the total into hours. -/
def calculate_efficiency_metrics (durations scores earnings time_limits : List ℚ) :
    EfficiencyMetrics :=
  if durations.isEmpty then
    { earnings_per_hour := 0, quality_efficiency := 0, time_efficiency := 0 }
  else
    let total_duration := durations.sum
    let total_earnings := earnings.sum
    let avg_score := scores.sum / (scores.length : ℚ)
    let earnings_per_hour := if 0 < total_duration then total_earnings / total_duration else 0
    let quality_efficiency :=
      if 0 < total_duration then avg_score / (total_duration / (durations.length : ℚ)) else 0
    let time_efficiency :=
      if time_limits.isEmpty then 0
      else
        let avg_usage := (List.zipWith (fun d l => if 0 < l then d / l else 0) durations time_limits).sum
          / (durations.length : ℚ)
        1 - min avg_usage 1
    { earnings_per_hour := earnings_per_hour, quality_efficiency := quality_efficiency,
      time_efficiency := time_efficiency }

/-- Result of calculate_aggregated_metrics. -/
structure AggregatedMetrics where
  duration : ParallelStats
  score : ParallelStats
  earnings : ParallelStats
  efficiency : EfficiencyMetrics

/-- Embedding of calculate_aggregated_metrics (lib.rs lines 500-556): none for
an empty durations sequence (the Rust function returns an empty dictionary),
else the four independent reductions. -/
noncomputable def calculate_aggregated_metrics (durations scores earnings time_limits : List ℚ) :
    Option AggregatedMetrics :=
  if durations.isEmpty then none
  else some
    { duration := calculate_stats_parallel durations,
      score := calculate_stats_parallel scores,
      earnings := calculate_stats_parallel earnings,
      efficiency := calculate_efficiency_metrics durations scores earnings time_limits }

/-! ## Concurrent timer management (lib.rs lines 1051-1124) -/

/-- Report of manage_concurrent_timers.  The zero short-circuit of the source
builds a dictionary without the target_duration key; reports_target records
whether that key is present. -/
structure TimerReport where
  completed_timers : ℕ
  total_elapsed : ℚ
  average_precision : ℚ
  reports_target : Bool
  target_duration : ℚ
deriving DecidableEq

/-- Shared-state update of one timer worker on completion: the completion
counter is incremented and the precision error of the worker appended, both
under the mutex. -/
def timerStep (target : ℚ) (acc : ℕ × List ℚ) (elapsed : ℚ) : ℕ × List ℚ :=
  (acc.1 + 1, acc.2 ++ [|elapsed - target|])

/-- Embedding of manage_concurrent_timers (lib.rs lines 1051-1124).  The
schedule is the oracle for the thread pool: the per-worker elapsed times in
completion order; the wall-clock total is a further oracle value.  The join
loop of the source guarantees the shared state is read only after every
worker ran, so the fold walks the whole schedule before the report is
built. -/
def manage_concurrent_timers (timer_count : ℕ) (duration_seconds : ℚ)
    (schedule : List ℚ) (wall_elapsed : ℚ) : TimerReport :=
  if timer_count = 0 then
    { completed_timers := 0, total_elapsed := 0, average_precision := 0,
      reports_target := false, target_duration := 0 }
  else
    let final := schedule.foldl (timerStep duration_seconds) (0, [])
    let average_precision :=
      if final.2.isEmpty then 0 else final.2.sum / (final.2.length : ℚ)
    { completed_timers := final.1, total_elapsed := wall_elapsed,
      average_precision := average_precision, reports_target := true,
      target_duration := duration_seconds }

/-! ## Helper lemmas -/

theorem digitVal_le_nine (c : Char) (h : c.isDigit = true) : digitVal c ≤ 9 := by
  simp [Char.isDigit, Char.le_def] at h
  obtain ⟨h1, h2⟩ := h
  have g2 : c.val.toNat ≤ 57 := h2
  unfold digitVal Char.toNat
  omega

theorem decimalValue_le_99 (s : List Char) (hd : s.all Char.isDigit = true)
    (hl : s.length ≤ 2) : decimalValue s ≤ 99 := by
  match s, hl with
  | [], _ => simp [decimalValue]
  | [a], _ =>
    have ha : a.isDigit = true := by simpa using hd
    have := digitVal_le_nine a ha
    simp only [decimalValue, List.foldl_cons, List.foldl_nil]
    omega
  | [a, b], _ =>
    have ha : a.isDigit = true := by
      have := hd
      simp [List.all_cons] at this
      exact this.1
    have hb : b.isDigit = true := by
      have := hd
      simp [List.all_cons] at this
      exact this.2
    have h1 := digitVal_le_nine a ha
    have h2 := digitVal_le_nine b hb
    simp only [decimalValue, List.foldl_cons, List.foldl_nil]
    omega

theorem parseU32_all_digits (s : List Char) (h1 : s ≠ [])
    (h2 : s.all Char.isDigit = true) (h3 : decimalValue s < 2 ^ 32) :
    parseU32 s = some (decimalValue s) := by
  match s, h1 with
  | c :: cs, _ =>
    have hc : c.isDigit = true := by
      have := h2
      simp [List.all_cons] at this
      exact this.1
    have hplus : ¬(c = '+') := by
      intro hq
      rw [hq] at hc
      exact absurd hc (by decide)
    simp only [parseU32, if_neg hplus]
    rw [if_neg (by simp), if_pos h2, if_pos h3]

/-! ## C3: agreement of the two time parsers -/

/-- C3 (amended): on every string matching the time pattern (three
colon-separated all-digit fields, hours of one or two digits, minutes and
seconds of two digits) the regex-based parser and the split-on-colon parser
agree and return hours*3600 + minutes*60 + seconds.  Neither parser has a
failing path: both are total.  On input the pattern does not match, the
regex-based parser returns zero for the entire string, while the fast parser
defaults each malformed field (and only that field) to zero whenever the
split still yields three fields.  The batch entry point is the elementwise
map of the regex-based parser. -/
theorem C3_time_parsers_amended :
    (∀ (s : String) (h m sec : List Char), timeMatch s = some (h, m, sec) →
      parse_time_to_seconds s = decimalValue h * 3600 + decimalValue m * 60 + decimalValue sec ∧
      parse_time_string_fast s = decimalValue h * 3600 + decimalValue m * 60 + decimalValue sec) ∧
    (∀ s : String, timeMatch s = none → parse_time_to_seconds s = 0) ∧
    (∀ (s : String) (a b c : List Char), splitOnChar ':' s.data = [a, b, c] →
      parse_time_string_fast s =
        ((parseU32 a).getD 0 * 3600 + (parseU32 b).getD 0 * 60 + (parseU32 c).getD 0) % 2 ^ 32) ∧
    (∀ l : List String, parse_time_to_seconds_batch l = l.map parse_time_to_seconds) := by
  refine ⟨?_, ?_, ?_, fun l => rfl⟩
  · intro s h m sec hmatch
    have hstruct := hmatch
    unfold timeMatch at hstruct
    split at hstruct
    case h_2 => exact absurd hstruct (by simp)
    case h_1 h0 m0 s0 heq =>
      split at hstruct
      case isFalse => exact absurd hstruct (by simp)
      case isTrue hc =>
        obtain ⟨rfl, rfl, rfl⟩ : h0 = h ∧ m0 = m ∧ s0 = sec := by simpa using hstruct
        obtain ⟨hh1, hh2, hhd, hm2, hmd, hs2, hsd⟩ := hc
        have hbh := decimalValue_le_99 h0 hhd hh2
        have hbm := decimalValue_le_99 m0 hmd (by omega)
        have hbs := decimalValue_le_99 s0 hsd (by omega)
        have hpu_h : parseU32 h0 = some (decimalValue h0) :=
          parseU32_all_digits h0 (by intro hnil; rw [hnil] at hh1; simp at hh1) hhd (by omega)
        have hpu_m : parseU32 m0 = some (decimalValue m0) :=
          parseU32_all_digits m0 (by intro hnil; rw [hnil] at hm2; simp at hm2) hmd (by omega)
        have hpu_s : parseU32 s0 = some (decimalValue s0) :=
          parseU32_all_digits s0 (by intro hnil; rw [hnil] at hs2; simp at hs2) hsd (by omega)
        constructor
        · simp only [parse_time_to_seconds, hmatch, hpu_h, hpu_m, hpu_s, Option.getD_some]
          exact Nat.mod_eq_of_lt (by omega)
        · simp only [parse_time_string_fast, heq, hpu_h, hpu_m, hpu_s, Option.getD_some]
          exact Nat.mod_eq_of_lt (by omega)
  · intro s hnone
    simp [parse_time_to_seconds, hnone]
  · intro s a b c hsplit
    simp [parse_time_string_fast, hsplit]

/-! ## C6, C7, C10: the task batch processor -/

theorem processTask_not_both (gr br : ℚ) (be : Bool) (d : String) (s : ℚ) :
    ¬((processTask gr br be d s).is_fail = true ∧ (processTask gr br be d s).is_bonus = true) := by
  rintro ⟨hf, hb⟩
  simp only [processTask] at hf hb
  rw [decide_eq_true_eq] at hf
  simp only [Bool.and_eq_true, decide_eq_true_eq] at hb
  exact absurd hf (not_lt.mpr hb.2)

theorem taskStep_fold_counts : ∀ (rs : List TaskResult) (acc : TaskAcc),
    (∀ r ∈ rs, ¬(r.is_fail = true ∧ r.is_bonus = true)) →
    (rs.foldl taskStep acc).fails + (rs.foldl taskStep acc).bonuses ≤
      acc.fails + acc.bonuses + rs.length
  | [], acc, _ => by simp
  | r :: rs, acc, h => by
    have hr := h r (by simp)
    have hrest : ∀ x ∈ rs, ¬(x.is_fail = true ∧ x.is_bonus = true) :=
      fun x hx => h x (by simp [hx])
    have ih := taskStep_fold_counts rs (taskStep acc r) hrest
    have hstep : (taskStep acc r).fails + (taskStep acc r).bonuses ≤
        acc.fails + acc.bonuses + 1 := by
      simp only [taskStep]
      cases hf : r.is_fail with
      | false =>
        cases hb : r.is_bonus with
        | false => simp
        | true => simp only [hf, hb]; simp; omega
      | true =>
        cases hb : r.is_bonus with
        | false => simp only [hf, hb]; simp; omega
        | true => exact absurd ⟨hf, hb⟩ hr
    simp only [List.foldl_cons, List.length_cons]
    omega

/-- C6 (confirmed): process_tasks_batch returns an error exactly when the two
input sequences have different lengths; the check precedes every per-record
computation in the source, and the empty batch (equal lengths) yields the
all-zero aggregate, not an error. -/
theorem C6_length_mismatch_fail_fast :
    (∀ (duration_strings : List String) (scores : List ℚ) (gr br : ℚ) (be : Bool),
      (∃ msg, process_tasks_batch duration_strings scores gr br be = .error msg) ↔
        duration_strings.length ≠ scores.length) ∧
    (∀ (gr br : ℚ) (be : Bool),
      process_tasks_batch [] [] gr br be =
        .ok { total_seconds := 0, total_earnings := 0, average_score := 0,
              fail_count := 0, bonus_tasks_count := 0, task_count := 0, fail_rate := 0 }) := by
  constructor
  · intro ds ss gr br be
    constructor
    · rintro ⟨msg, hmsg⟩
      by_contra hlen
      simp only [process_tasks_batch] at hmsg
      rw [if_neg (not_ne_iff.mpr hlen)] at hmsg
      split at hmsg <;> exact absurd hmsg (by simp)
    · intro hlen
      exact ⟨("Duration strings and scores must have the same length"),
        by simp [process_tasks_batch, hlen]⟩
  · intro gr br be
    rfl

/-- C7 (confirmed): every record of process_tasks_batch is classified failed
exactly when its score is below three, bonus exactly when bonuses are enabled
and its score is at least three, and is priced at duration in hours times the
bonus rate when it is a bonus and the global rate otherwise; on the single
record 01:00:00 with score five, global rate ten, bonus rate twenty and
bonuses enabled, the aggregate is 3600 seconds, twenty earned, no fail and
one bonus task. -/
theorem C7_record_classification :
    (∀ (gr br : ℚ) (be : Bool) (d : String) (s : ℚ),
      (processTask gr br be d s).is_fail = decide (s < 3) ∧
      (processTask gr br be d s).is_bonus = (be && decide (3 ≤ s)) ∧
      (processTask gr br be d s).duration_seconds = parse_time_string_fast d ∧
      (processTask gr br be d s).earnings =
        ((parse_time_string_fast d : ℚ) / 3600) *
          (if (processTask gr br be d s).is_bonus = true then br else gr)) ∧
    process_tasks_batch [("01:00:00")] [5] 10 20 true =
      .ok { total_seconds := 3600, total_earnings := 20, average_score := 5,
            fail_count := 0, bonus_tasks_count := 1, task_count := 1, fail_rate := 0 } := by
  constructor
  · intro gr br be d s
    refine ⟨rfl, rfl, rfl, ?_⟩
    cases hb : (be && decide (3 ≤ s)) with
    | false => simp [processTask, hb]
    | true => simp [processTask, hb]
  · have hp : parse_time_string_fast ("01:00:00") = 3600 := by decide
    have hb : (true && decide ((3 : ℚ) ≤ 5)) = true := by decide
    have hf : (decide ((5 : ℚ) < 3)) = false := by decide
    simp [process_tasks_batch, processTask, taskStep, hp, hb, hf]
    norm_num

/-- C10 (confirmed): no record is both failed and bonus (failing needs a score
below three, bonus a score at least three), so every successful aggregate has
fail_count + bonus_tasks_count at most task_count, and each count separately
at most task_count. -/
theorem C10_fail_bonus_disjoint (duration_strings : List String) (scores : List ℚ)
    (gr br : ℚ) (be : Bool) (agg : BatchAggregate)
    (h : process_tasks_batch duration_strings scores gr br be = .ok agg) :
    agg.fail_count + agg.bonus_tasks_count ≤ agg.task_count ∧
    agg.fail_count ≤ agg.task_count ∧ agg.bonus_tasks_count ≤ agg.task_count ∧
    (∀ (d : String) (s : ℚ),
      ¬((processTask gr br be d s).is_fail = true ∧ (processTask gr br be d s).is_bonus = true)) := by
  have hmain : agg.fail_count + agg.bonus_tasks_count ≤ agg.task_count := by
    simp only [process_tasks_batch] at h
    split at h
    case isTrue => exact absurd h (by simp)
    case isFalse hlen =>
      rw [not_ne_iff] at hlen
      split at h
      case isTrue hzero =>
        rw [Except.ok.injEq] at h
        subst h
        simp
      case isFalse hzero =>
        rw [Except.ok.injEq] at h
        subst h
        simp only
        set results := (duration_strings.zip scores).map
          (fun p => processTask gr br be p.1 p.2) with hres
        have hforall : ∀ r ∈ results, ¬(r.is_fail = true ∧ r.is_bonus = true) := by
          intro r hrmem
          rw [hres, List.mem_map] at hrmem
          obtain ⟨p, hp, rfl⟩ := hrmem
          exact processTask_not_both gr br be p.1 p.2
        have hcount := taskStep_fold_counts results
          { seconds := 0, earnings := 0, score := 0, fails := 0, bonuses := 0 } hforall
        have hlenres : results.length = duration_strings.length := by
          rw [hres, List.length_map, List.length_zip, hlen, Nat.min_self]
        simp only at hcount
        omega
  exact ⟨hmain, by omega, by omega, fun d s => processTask_not_both gr br be d s⟩

/-- Closed instantiation of C10 on a two-record batch with one failing and one
bonus record, the hypotheses discharged by evaluation. -/
theorem C10_fail_bonus_disjoint_witness :
    (process_tasks_batch [("01:00:00"), ("00:30:00")] [5, 2] 10 20 true =
      .ok { total_seconds := 5400, total_earnings := 25, average_score := 7 / 2,
            fail_count := 1, bonus_tasks_count := 1, task_count := 2, fail_rate := 50 }) ∧
    (1 + 1 ≤ 2 ∧ 1 ≤ 2 ∧ 1 ≤ 2 ∧
      (∀ (d : String) (s : ℚ),
        ¬((processTask 10 20 true d s).is_fail = true ∧
          (processTask 10 20 true d s).is_bonus = true))) := by
  have hp1 : parse_time_string_fast ("01:00:00") = 3600 := by decide
  have hp2 : parse_time_string_fast ("00:30:00") = 1800 := by decide
  have hb1 : (true && decide ((3 : ℚ) ≤ 5)) = true := by decide
  have hb2 : (true && decide ((3 : ℚ) ≤ 2)) = false := by decide
  have hf1 : (decide ((5 : ℚ) < 3)) = false := by decide
  have hf2 : (decide ((2 : ℚ) < 3)) = true := by decide
  have hconc : process_tasks_batch [("01:00:00"), ("00:30:00")] [5, 2] 10 20 true =
      .ok { total_seconds := 5400, total_earnings := 25, average_score := 7 / 2,
            fail_count := 1, bonus_tasks_count := 1, task_count := 2, fail_rate := 50 } := by
    simp [process_tasks_batch, processTask, taskStep, hp1, hp2, hb1, hb2, hf1, hf2]
    norm_num
  exact ⟨hconc, C10_fail_bonus_disjoint _ _ _ _ _ _ hconc⟩

/-! ## C9: the concurrent timer manager -/

theorem timerStep_fold (target : ℚ) : ∀ (schedule : List ℚ) (acc : ℕ × List ℚ),
    schedule.foldl (timerStep target) acc =
      (acc.1 + schedule.length, acc.2 ++ schedule.map (fun e => |e - target|))
  | [], acc => by simp
  | e :: rest, acc => by
    rw [List.foldl_cons, timerStep_fold target rest]
    simp [timerStep]
    omega

/-- C9 (confirmed): for a positive timer count the report, which the source
builds only after joining every spawned worker, counts exactly timer_count
completions whatever the completion schedule, and its average precision error
is the mean of the per-worker absolute errors, hence nonnegative; a zero
timer count short-circuits to the all-zero report (one without the
target_duration key) for every schedule.  The completion schedule is the
oracle for the thread pool: one elapsed time per spawned worker, in any
order. -/
theorem C9_timer_join_barrier :
    (∀ (timer_count : ℕ) (duration_seconds wall_elapsed : ℚ) (schedule : List ℚ),
      0 < timer_count → schedule.length = timer_count →
      (manage_concurrent_timers timer_count duration_seconds schedule wall_elapsed).completed_timers
        = timer_count ∧
      (manage_concurrent_timers timer_count duration_seconds schedule wall_elapsed).average_precision
        = (schedule.map (fun e => |e - duration_seconds|)).sum / (timer_count : ℚ) ∧
      0 ≤ (manage_concurrent_timers timer_count duration_seconds schedule wall_elapsed).average_precision) ∧
    (∀ (duration_seconds wall_elapsed : ℚ) (schedule : List ℚ),
      manage_concurrent_timers 0 duration_seconds schedule wall_elapsed =
        { completed_timers := 0, total_elapsed := 0, average_precision := 0,
          reports_target := false, target_duration := 0 }) := by
  constructor
  · intro timer_count duration_seconds wall_elapsed schedule hpos hlen
    have hne : timer_count ≠ 0 := Nat.pos_iff_ne_zero.mp hpos
    have havg : (manage_concurrent_timers timer_count duration_seconds schedule wall_elapsed).average_precision
        = (schedule.map (fun e => |e - duration_seconds|)).sum / (timer_count : ℚ) := by
      simp only [manage_concurrent_timers, if_neg hne, timerStep_fold]
      have hmapne : (schedule.map (fun e => |e - duration_seconds|)).isEmpty = false := by
        rw [List.isEmpty_eq_false_iff_exists_mem]
        have : schedule ≠ [] := by
          intro hq
          rw [hq] at hlen
          simp at hlen
          omega
        obtain ⟨x, hx⟩ := List.exists_mem_of_ne_nil schedule this
        exact ⟨_, List.mem_map_of_mem _ hx⟩
      simp [hmapne, hlen]
    refine ⟨?_, havg, ?_⟩
    · simp [manage_concurrent_timers, if_neg hne, timerStep_fold, hlen]
    · rw [havg]
      apply div_nonneg
      · apply List.sum_nonneg
        intro x hx
        obtain ⟨e, _, rfl⟩ := List.mem_map.mp hx
        exact abs_nonneg _
      · exact Nat.cast_nonneg _
  · intro duration_seconds wall_elapsed schedule
    rfl

/-! ## C2: earnings per hour in the aggregated metrics -/

/-- The claim predicts total earnings divided by the duration total expressed
in hours, i.e. by sum(durations)/3600; the code divides by the raw duration
total with no hours conversion.  One task of 7200 raw duration units earning
10 makes the code report 10/7200 = 1/720 while the claim predicts
10/(7200/3600) = 5. -/
theorem C2_counterexample :
    (calculate_aggregated_metrics [7200] [3] [10] []).map
        (fun r => r.efficiency.earnings_per_hour) = some (1 / 720) ∧
    (1 / 720 : ℚ) ≠ [(10 : ℚ)].sum / ([(7200 : ℚ)].sum / 3600) := by
  constructor
  · have h1 : ([(7200 : ℚ)]).isEmpty = false := by simp
    simp only [calculate_aggregated_metrics, calculate_efficiency_metrics, h1,
      Bool.false_eq_true, if_false, Option.map_some]
    norm_num
  · norm_num

/-- C2 (amended): for a non-empty durations sequence the efficiency block of
calculate_aggregated_metrics reports earnings_per_hour as the earnings total
divided by the raw duration total (not by the total expressed in hours), and
zero when the duration total is not positive. -/
theorem C2_earnings_per_hour_amended (durations scores earnings time_limits : List ℚ)
    (h : durations ≠ []) :
    (calculate_aggregated_metrics durations scores earnings time_limits).map
        (fun r => r.efficiency.earnings_per_hour) =
      some (if 0 < durations.sum then earnings.sum / durations.sum else 0) := by
  have hne : durations.isEmpty = false := by simpa [List.isEmpty_iff] using h
  simp only [calculate_aggregated_metrics, calculate_efficiency_metrics, hne,
    Bool.false_eq_true, if_false, Option.map_some]
  rfl

/-- Closed instantiation of C2 as amended, on one task of 3600 raw duration
units earning 10. -/
theorem C2_earnings_per_hour_witness :
    ([(3600 : ℚ)] ≠ []) ∧
    (calculate_aggregated_metrics [(3600 : ℚ)] [5] [10] []).map
        (fun r => r.efficiency.earnings_per_hour) =
      some (if 0 < [(3600 : ℚ)].sum then [(10 : ℚ)].sum / [(3600 : ℚ)].sum else 0) :=
  ⟨by simp, C2_earnings_per_hour_amended [(3600 : ℚ)] [5] [10] [] (by simp)⟩

/-- On the malformed input 1:xx:02 the fast parser defaults the malformed
minutes field to zero and returns 3602, which is what per-field defaulting
prescribes; the regex-based parser rejects the whole string and returns zero,
so the claim that each malformed field defaults to zero is false of it. -/
theorem C3_counterexample :
    parse_time_to_seconds_batch [("1:xx:02")] = [0] ∧
    parse_time_string_fast ("1:xx:02") = 1 * 3600 + 0 * 60 + 2 ∧
    parse_time_to_seconds ("1:xx:02") ≠ 1 * 3600 + 0 * 60 + 2 :=
  ⟨by decide, by decide, by decide⟩

/-! ## C8: the statistical summary -/

theorem get?_getD_of_lt {α : Type} (l : List α) (i : ℕ) (d1 d2 : α) (h : i < l.length) :
    (l.get? i).getD d1 = l.getD i d2 := by
  rw [List.getD_eq_getElem?_getD, List.get?_eq_getElem?, List.getElem?_eq_getElem h]
  simp

/-- C8 (confirmed): for every non-empty sample the summary takes q1 and q3
from the sorted copy at the truncating zero-based indices n/4 and 3n/4, the
median as the middle element or the midpoint of the two middle elements, and
the outliers by filtering the unsorted original sample in order against the
iqr fences; on the sample 1..10 this gives median 11/2, q1 = 3, q3 = 8 and no
outliers. -/
theorem C8_summary_quartiles :
    (∀ data : List ℚ, data ≠ [] →
      ∃ s, calculate_statistical_summary data = some s ∧
        s.sample_size = data.length ∧
        s.q1 = (List.insertionSort (fun a b => a ≤ b) data).getD (data.length / 4) 0 ∧
        s.q3 = (List.insertionSort (fun a b => a ≤ b) data).getD (3 * data.length / 4) 0 ∧
        s.iqr = s.q3 - s.q1 ∧
        s.median = (if data.length % 2 = 0 then
            ((List.insertionSort (fun a b => a ≤ b) data).getD (data.length / 2 - 1) 0 +
             (List.insertionSort (fun a b => a ≤ b) data).getD (data.length / 2) 0) / 2
          else (List.insertionSort (fun a b => a ≤ b) data).getD (data.length / 2) 0) ∧
        s.outliers = data.filter (fun x => x < s.q1 - 3 / 2 * s.iqr ∨ s.q3 + 3 / 2 * s.iqr < x) ∧
        s.outlier_count = s.outliers.length) ∧
    (calculate_statistical_summary [1, 2, 3, 4, 5, 6, 7, 8, 9, 10]).map
        (fun s => (s.median, s.q1, s.q3, s.outlier_count)) = some (11 / 2, 3, 8, 0) := by
  constructor
  · intro data hdata
    have hne : data.isEmpty = false := by simpa [List.isEmpty_iff] using hdata
    have hpos : 0 < data.length := List.length_pos.mpr hdata
    have hsl : (List.insertionSort (fun a b => a ≤ b) data).length = data.length :=
      List.length_insertionSort _ _
    simp only [calculate_statistical_summary, hne, Bool.false_eq_true, if_false]
    refine ⟨_, rfl, hsl, ?_, ?_, rfl, ?_, rfl, rfl⟩
    · rw [hsl]
      refine get?_getD_of_lt _ _ _ _ ?_
      rw [hsl]
      omega
    · rw [hsl]
      refine get?_getD_of_lt _ _ _ _ ?_
      rw [hsl]
      omega
    · rw [hsl]
  · have hsorted : List.insertionSort (fun a b => a ≤ b) ([1, 2, 3, 4, 5, 6, 7, 8, 9, 10] : List ℚ)
        = [1, 2, 3, 4, 5, 6, 7, 8, 9, 10] := by decide
    simp only [calculate_statistical_summary, hsorted]
    norm_num [List.filter_cons, decide_eq_true_eq]

/-! ## C1: the confidence interval -/

theorem mean_thirty_zeros_and_31 : calculate_mean (List.replicate 30 (0 : ℝ) ++ [31]) = 1 := by
  rw [calculate_mean, if_neg (by simp)]
  simp only [List.sum_append, List.sum_replicate, List.length_append, List.length_replicate,
    List.sum_cons, List.sum_nil, List.length_cons, List.length_nil, smul_zero]
  norm_num

theorem std_dev_thirty_zeros_and_31 :
    calculate_std_dev (List.replicate 30 (0 : ℝ) ++ [31]) = Real.sqrt 31 := by
  rw [calculate_std_dev, if_neg (by simp)]
  rw [mean_thirty_zeros_and_31]
  congr 1
  simp only [List.map_append, List.map_replicate, List.sum_append, List.sum_replicate,
    List.map_cons, List.map_nil, List.sum_cons, List.sum_nil, List.length_append,
    List.length_replicate, List.length_cons, List.length_nil, nsmul_eq_mul]
  norm_num

theorem sqrt_31_ne_zero : Real.sqrt 31 ≠ 0 := by
  rw [Real.sqrt_ne_zero']
  norm_num

/-- Instantiating the claim at the 31-element sample of thirty zeros and one
31 at confidence level 0.90: the sample size 31 exceeds 30, so the claim
predicts the normal-approximation value 1.645; the code branches on the
degrees of freedom 30, takes the coarser value 2.0, and returns (-1, 3)
instead of the predicted (-0.645, 2.645). -/
theorem C1_counterexample :
    calculate_confidence_interval (List.replicate 30 (0 : ℝ) ++ [31]) (9 / 10) ≠
      (calculate_mean (List.replicate 30 (0 : ℝ) ++ [31]) -
         criticalValueSpec (List.replicate 30 (0 : ℝ) ++ [31]).length (9 / 10) *
           calculate_std_dev (List.replicate 30 (0 : ℝ) ++ [31]) /
             Real.sqrt ((List.replicate 30 (0 : ℝ) ++ [31]).length),
       calculate_mean (List.replicate 30 (0 : ℝ) ++ [31]) +
         criticalValueSpec (List.replicate 30 (0 : ℝ) ++ [31]).length (9 / 10) *
           calculate_std_dev (List.replicate 30 (0 : ℝ) ++ [31]) /
             Real.sqrt ((List.replicate 30 (0 : ℝ) ++ [31]).length)) := by
  have hlen : (List.replicate 30 (0 : ℝ) ++ [31]).length = 31 := by simp
  have hLHS : calculate_confidence_interval (List.replicate 30 (0 : ℝ) ++ [31]) (9 / 10)
      = (-1, 3) := by
    simp only [calculate_confidence_interval, hlen, mean_thirty_zeros_and_31,
      std_dev_thirty_zeros_and_31]
    rw [if_neg (by norm_num)]
    rw [if_neg (by norm_num)]
    rw [if_neg (by norm_num), if_neg (by norm_num), if_pos (by norm_num)]
    rw [show (((31 : ℕ) : ℝ)) = (31 : ℝ) by norm_num, div_self sqrt_31_ne_zero]
    norm_num
  have hRHS : (calculate_mean (List.replicate 30 (0 : ℝ) ++ [31]) -
         criticalValueSpec (List.replicate 30 (0 : ℝ) ++ [31]).length (9 / 10) *
           calculate_std_dev (List.replicate 30 (0 : ℝ) ++ [31]) /
             Real.sqrt ((List.replicate 30 (0 : ℝ) ++ [31]).length),
       calculate_mean (List.replicate 30 (0 : ℝ) ++ [31]) +
         criticalValueSpec (List.replicate 30 (0 : ℝ) ++ [31]).length (9 / 10) *
           calculate_std_dev (List.replicate 30 (0 : ℝ) ++ [31]) /
             Real.sqrt ((List.replicate 30 (0 : ℝ) ++ [31]).length))
      = (1 - 1645 / 1000, 1 + 1645 / 1000) := by
    rw [hlen, mean_thirty_zeros_and_31, std_dev_thirty_zeros_and_31]
    simp only [criticalValueSpec]
    rw [if_pos (by norm_num), if_neg (by norm_num), if_neg (by norm_num), if_pos (by norm_num)]
    rw [show (((31 : ℕ) : ℝ)) = (31 : ℝ) by norm_num, mul_div_assoc, div_self sqrt_31_ne_zero]
    norm_num
  rw [hLHS, hRHS]
  intro h
  rw [Prod.mk.injEq] at h
  have h1 := h.1
  norm_num at h1

/-- C1 (amended): for every sample of length at least two and every
confidence level, calculate_confidence_interval selects its critical value by
the degrees of freedom n - 1 (not by the sample size): when n - 1 exceeds 30
(sample size at least 32) it takes the normal-approximation table (level at
least 0.99 gives 2.576, at least 0.95 gives 1.960, at least 0.90 gives 1.645,
else 1.960), otherwise the coarser table (3.0, 2.5, 2.0, else 2.5); it
returns (mean - m, mean + m) with m = critical_value * std_dev / sqrt(n). -/
theorem C1_confidence_interval_amended (data : List ℝ) (level : ℝ) (h : 2 ≤ data.length) :
    calculate_confidence_interval data level =
      (calculate_mean data - criticalValueCode data.length level * calculate_std_dev data /
         Real.sqrt (data.length),
       calculate_mean data + criticalValueCode data.length level * calculate_std_dev data /
         Real.sqrt (data.length)) := by
  simp only [calculate_confidence_interval, criticalValueCode]
  rw [if_neg (by omega)]
  rw [mul_div_assoc]

/-- Closed instantiation of C1 as amended at the two-element sample (0, 1)
and level one half. -/
theorem C1_confidence_interval_witness :
    2 ≤ ([(0 : ℝ), 1]).length ∧
    calculate_confidence_interval [(0 : ℝ), 1] (1 / 2) =
      (calculate_mean [(0 : ℝ), 1] - criticalValueCode ([(0 : ℝ), 1]).length (1 / 2) *
         calculate_std_dev [(0 : ℝ), 1] / Real.sqrt (([(0 : ℝ), 1]).length),
       calculate_mean [(0 : ℝ), 1] + criticalValueCode ([(0 : ℝ), 1]).length (1 / 2) *
         calculate_std_dev [(0 : ℝ), 1] / Real.sqrt (([(0 : ℝ), 1]).length)) :=
  ⟨by simp, C1_confidence_interval_amended [(0 : ℝ), 1] (1 / 2) (by simp)⟩

/-! ## C4, C5: batch correlations and determinism -/

theorem correlation_coefficient_symm (x y : List ℝ) :
    calculate_correlation_coefficient x y = calculate_correlation_coefficient y x := by
  by_cases hlen : x.length = y.length
  · simp only [calculate_correlation_coefficient]
    rw [hlen]
    rw [List.zipWith_comm_of_comm (fun a b => a * b) mul_comm x y]
    rw [mul_comm ((y.length : ℝ) * (x.map (fun a => a * a)).sum - x.sum * x.sum)
        ((y.length : ℝ) * (y.map (fun a => a * a)).sum - y.sum * y.sum)]
    rw [mul_comm x.sum y.sum]
  · simp only [calculate_correlation_coefficient]
    rw [if_pos (Or.inl hlen), if_pos (Or.inl (Ne.symm hlen))]

theorem allPairs_length_sq {α : Type} : ∀ l : List α,
    2 * (allPairs l).length + l.length = l.length * l.length
  | [] => by simp [allPairs]
  | x :: xs => by
    have ih := allPairs_length_sq xs
    simp only [allPairs, List.length_append, List.length_map, List.length_cons]
    ring_nf
    ring_nf at ih
    linarith [ih]

theorem allPairs_length_div {α : Type} (l : List α) :
    (allPairs l).length = l.length * (l.length - 1) / 2 := by
  have h1 := allPairs_length_sq l
  have h2 : l.length * (l.length - 1) = l.length * l.length - l.length := by
    rcases hl : l.length with _ | m
    · simp
    · rw [Nat.succ_sub_one, Nat.mul_succ, Nat.add_sub_cancel]
  rw [h2]
  generalize l.length * l.length = A at h1 ⊢
  omega

theorem allPairs_mem {α : Type} : ∀ (l : List α) (pq : α × α), pq ∈ allPairs l →
    pq.1 ∈ l ∧ pq.2 ∈ l
  | [], pq, h => by simp [allPairs] at h
  | x :: xs, pq, h => by
    simp only [allPairs, List.mem_append, List.mem_map] at h
    rcases h with ⟨y, hy, rfl⟩ | h
    · exact ⟨by simp, by simp [hy]⟩
    · have hih := allPairs_mem xs pq h
      exact ⟨by simp [hih.1], by simp [hih.2]⟩

theorem allPairs_map_ne {α β : Type} (f : α → β) : ∀ (l : List α), (l.map f).Nodup →
    ∀ pq ∈ allPairs l, f pq.1 ≠ f pq.2
  | [], _, pq, h => by simp [allPairs] at h
  | x :: xs, hnd, pq, h => by
    simp only [List.map_cons, List.nodup_cons] at hnd
    simp only [allPairs, List.mem_append, List.mem_map] at h
    rcases h with ⟨y, hy, rfl⟩ | h
    · intro he
      exact hnd.1 (he ▸ List.mem_map_of_mem f hy)
    · exact allPairs_map_ne f xs hnd.2 pq h

theorem dictInsert_not_mem {β : Type} : ∀ (d : List (String × β)) (k : String) (v : β),
    (∀ p ∈ d, p.1 ≠ k) → dictInsert d k v = d ++ [(k, v)]
  | [], _, _, _ => rfl
  | (k0, v0) :: rest, k, v, h => by
    have hk0 : k0 ≠ k := h (k0, v0) (by simp)
    simp only [dictInsert, if_neg hk0, List.cons_append]
    rw [dictInsert_not_mem rest k v (fun p hp => h p (by simp [hp]))]

theorem foldl_dictInsert_keyed {α β : Type} (key : α → String) (val : α → β) :
    ∀ (l : List α) (acc : List (String × β)),
      (acc.map Prod.fst ++ l.map key).Nodup →
      l.foldl (fun d pq => dictInsert d (key pq) (val pq)) acc =
        acc ++ l.map (fun pq => (key pq, val pq))
  | [], acc, _ => by simp
  | a :: rest, acc, h => by
    have hk : ∀ p ∈ acc, p.1 ≠ key a := by
      intro p hp he
      rw [List.map_cons, List.nodup_append] at h
      refine h.2.2 (List.mem_map_of_mem Prod.fst hp) ?_
      rw [he]
      simp
    rw [List.foldl_cons, dictInsert_not_mem acc (key a) (val a) hk]
    have h2 : ((acc ++ [(key a, val a)]).map Prod.fst ++ rest.map key).Nodup := by
      simp only [List.map_append, List.map_cons, List.map_nil, List.append_assoc] at h ⊢
      simpa using h
    rw [foldl_dictInsert_keyed key val rest (acc ++ [(key a, val a)]) h2]
    simp

theorem batch_correlations_explicit (entries : List (String × List ℝ))
    (hkeys : ((allPairs entries).map (fun pq => joinKey pq.1.1 pq.2.1)).Nodup) :
    calculate_batch_correlations entries =
      (allPairs entries).map
        (fun pq => (joinKey pq.1.1 pq.2.1, calculate_correlation_coefficient pq.1.2 pq.2.2)) := by
  have h := foldl_dictInsert_keyed (fun pq => joinKey pq.1.1 pq.2.1)
      (fun pq => calculate_correlation_coefficient pq.1.2 pq.2.2) (allPairs entries) []
      (by simpa using hkeys)
  simpa [calculate_batch_correlations] using h

theorem pairObs_comm (p q : String × List ℝ) : pairObs p q = pairObs q p := by
  unfold pairObs
  rw [correlation_coefficient_symm p.2 q.2]
  by_cases h1 : p.1 ≤ q.1
  · by_cases h2 : q.1 ≤ p.1
    · rw [if_pos h1, if_pos h2, le_antisymm h1 h2]
    · rw [if_pos h1, if_neg h2]
  · have h2 : q.1 ≤ p.1 := le_of_not_le h1
    rw [if_neg h1, if_pos h2]

theorem allPairs_pairObs_perm {l1 l2 : List (String × List ℝ)} (hperm : l1.Perm l2) :
    ((allPairs l1).map (fun pq => pairObs pq.1 pq.2)).Perm
      ((allPairs l2).map (fun pq => pairObs pq.1 pq.2)) := by
  induction hperm with
  | nil => simp
  | cons x h ih =>
    simp only [allPairs, List.map_append, List.map_map]
    exact List.Perm.append (h.map _) ih
  | swap x y l =>
    simp only [allPairs, List.map_append, List.map_cons, List.map_map, List.cons_append]
    rw [show pairObs y x = pairObs x y from pairObs_comm y x]
    exact List.Perm.cons _ (by
      rw [← List.append_assoc, ← List.append_assoc]
      exact List.Perm.append (List.perm_append_comm) (List.Perm.refl _))
  | trans h1 h2 ih1 ih2 => exact ih1.trans ih2

/-- The claim fails in two ways.  First, the emitted keys depend on the
enumeration order of the input mapping (which for a Rust HashMap is not a
function of the mapping): enumerating the two-name mapping a, b in the two
possible orders produces the key a_b in one call and b_a in the other.
Second, with names containing underscores, two distinct unordered pairs can
join to the same key: on four distinct names a, b_c, a_b, c the pairs (a, b_c)
and (a_b, c) both emit the key a_b_c, so only 5 entries remain of the
6 = 4*3/2 the claim promises. -/
theorem C4_counterexample :
    ((calculate_batch_correlations [(("a"), [(0 : ℝ)]), (("b"), [(1 : ℝ)])]).map Prod.fst ≠
      (calculate_batch_correlations [(("b"), [(1 : ℝ)]), (("a"), [(0 : ℝ)])]).map Prod.fst) ∧
    (calculate_batch_correlations
        [(("a"), [(1 : ℝ)]), (("b_c"), [(1 : ℝ)]), (("a_b"), [(1 : ℝ)]), (("c"), [(1 : ℝ)])]).length
      = 5 :=
  ⟨by decide, by decide⟩

/-- C4 (amended): when the distinct variable names additionally produce
pairwise distinct joined keys, calculate_batch_correlations emits exactly
n*(n-1)/2 entries, namely one entry per index pair i < j of the enumeration,
keyed name_i_name_j and valued with the pairwise Pearson correlation; the
keys are pairwise distinct and no entry pairs a name with itself.  The
emitted key strings depend on the enumeration order of the mapping; what is
order-independent is the multiset of orientation-free observations (unordered
name pair with its correlation value). -/
theorem C4_batch_pairs_amended (entries : List (String × List ℝ))
    (hnames : (entries.map Prod.fst).Nodup)
    (hkeys : ((allPairs entries).map (fun pq => joinKey pq.1.1 pq.2.1)).Nodup) :
    calculate_batch_correlations entries =
      (allPairs entries).map
        (fun pq => (joinKey pq.1.1 pq.2.1, calculate_correlation_coefficient pq.1.2 pq.2.2)) ∧
    (calculate_batch_correlations entries).length = entries.length * (entries.length - 1) / 2 ∧
    ((calculate_batch_correlations entries).map Prod.fst).Nodup ∧
    (∀ e ∈ calculate_batch_correlations entries, ∃ p ∈ entries, ∃ q ∈ entries,
      p.1 ≠ q.1 ∧ e = (joinKey p.1 q.1, calculate_correlation_coefficient p.2 q.2)) ∧
    (∀ entries2 : List (String × List ℝ), entries2.Perm entries →
      ((allPairs entries2).map (fun pq => pairObs pq.1 pq.2)).Perm
        ((allPairs entries).map (fun pq => pairObs pq.1 pq.2))) := by
  have heq := batch_correlations_explicit entries hkeys
  refine ⟨heq, ?_, ?_, ?_, fun e2 hp => allPairs_pairObs_perm hp⟩
  · rw [heq, List.length_map]
    exact allPairs_length_div entries
  · rw [heq, List.map_map]
    simpa [Function.comp] using hkeys
  · intro e he
    rw [heq] at he
    obtain ⟨pq, hpq, rfl⟩ := List.mem_map.mp he
    obtain ⟨hm1, hm2⟩ := allPairs_mem entries pq hpq
    exact ⟨pq.1, hm1, pq.2, hm2, allPairs_map_ne Prod.fst entries hnames pq hpq, rfl⟩

/-- Closed instantiation of C4 as amended on the three-name mapping a, b, c,
whose joined keys a_b, a_c, b_c are pairwise distinct. -/
theorem C4_batch_pairs_witness :
    ((([(("a"), [(1 : ℝ), 2, 4]), (("b"), [(2 : ℝ), 4, 8]), (("c"), [(1 : ℝ), 3, 5])]).map
        Prod.fst).Nodup ∧
     ((allPairs [(("a"), [(1 : ℝ), 2, 4]), (("b"), [(2 : ℝ), 4, 8]), (("c"), [(1 : ℝ), 3, 5])]).map
        (fun pq => joinKey pq.1.1 pq.2.1)).Nodup) ∧
    (calculate_batch_correlations
        [(("a"), [(1 : ℝ), 2, 4]), (("b"), [(2 : ℝ), 4, 8]), (("c"), [(1 : ℝ), 3, 5])] =
      (allPairs [(("a"), [(1 : ℝ), 2, 4]), (("b"), [(2 : ℝ), 4, 8]), (("c"), [(1 : ℝ), 3, 5])]).map
        (fun pq => (joinKey pq.1.1 pq.2.1, calculate_correlation_coefficient pq.1.2 pq.2.2)) ∧
     (calculate_batch_correlations
        [(("a"), [(1 : ℝ), 2, 4]), (("b"), [(2 : ℝ), 4, 8]), (("c"), [(1 : ℝ), 3, 5])]).length =
       ([(("a"), [(1 : ℝ), 2, 4]), (("b"), [(2 : ℝ), 4, 8]), (("c"), [(1 : ℝ), 3, 5])]).length *
         (([(("a"), [(1 : ℝ), 2, 4]), (("b"), [(2 : ℝ), 4, 8]), (("c"), [(1 : ℝ), 3, 5])]).length - 1) / 2 ∧
     ((calculate_batch_correlations
        [(("a"), [(1 : ℝ), 2, 4]), (("b"), [(2 : ℝ), 4, 8]), (("c"), [(1 : ℝ), 3, 5])]).map
          Prod.fst).Nodup ∧
     (∀ e ∈ calculate_batch_correlations
        [(("a"), [(1 : ℝ), 2, 4]), (("b"), [(2 : ℝ), 4, 8]), (("c"), [(1 : ℝ), 3, 5])],
       ∃ p ∈ [(("a"), [(1 : ℝ), 2, 4]), (("b"), [(2 : ℝ), 4, 8]), (("c"), [(1 : ℝ), 3, 5])],
       ∃ q ∈ [(("a"), [(1 : ℝ), 2, 4]), (("b"), [(2 : ℝ), 4, 8]), (("c"), [(1 : ℝ), 3, 5])],
         p.1 ≠ q.1 ∧ e = (joinKey p.1 q.1, calculate_correlation_coefficient p.2 q.2)) ∧
     (∀ entries2 : List (String × List ℝ),
       entries2.Perm [(("a"), [(1 : ℝ), 2, 4]), (("b"), [(2 : ℝ), 4, 8]), (("c"), [(1 : ℝ), 3, 5])] →
       ((allPairs entries2).map (fun pq => pairObs pq.1 pq.2)).Perm
         ((allPairs [(("a"), [(1 : ℝ), 2, 4]), (("b"), [(2 : ℝ), 4, 8]), (("c"), [(1 : ℝ), 3, 5])]).map
           (fun pq => pairObs pq.1 pq.2)))) :=
  ⟨⟨by decide, by decide⟩,
   C4_batch_pairs_amended
     [(("a"), [(1 : ℝ), 2, 4]), (("b"), [(2 : ℝ), 4, 8]), (("c"), [(1 : ℝ), 3, 5])]
     (by decide) (by decide)⟩

/-- Two calls of calculate_batch_correlations on the same two-name mapping,
enumerated by the backing HashMap in the two possible orders (the order is
not a function of the mapping, so identical inputs can produce either),
return different dictionaries: the single key is a_b in one and b_a in the
other. -/
theorem C5_counterexample :
    calculate_batch_correlations [(("a"), [(1 : ℝ), 2, 4]), (("b"), [(1 : ℝ), 3, 9])] ≠
      calculate_batch_correlations [(("b"), [(1 : ℝ), 3, 9]), (("a"), [(1 : ℝ), 2, 4])] := by
  intro h
  have h2 := congrArg (List.map Prod.fst) h
  exact absurd h2 (by decide)

/-- C5 (amended): every statistical entry point is a pure function of its
arguments, so two calls with identical input and identical map enumeration
order yield identical output; for batch_correlations the emitted key strings
additionally depend on the enumeration order (a pair's key may appear in
either orientation across calls), but the orientation-free observations are
call-independent: the Pearson coefficient is symmetric in its two arguments
and the multiset of unordered name pairs with their correlation values is
invariant under permutation of the enumeration. -/
theorem C5_determinism_amended :
    (∀ x y : List ℝ,
      calculate_correlation_coefficient x y = calculate_correlation_coefficient y x) ∧
    (∀ entries entries2 : List (String × List ℝ), entries.Perm entries2 →
      ((allPairs entries).map (fun pq => pairObs pq.1 pq.2)).Perm
        ((allPairs entries2).map (fun pq => pairObs pq.1 pq.2))) ∧
    (∀ entries : List (String × List ℝ),
      calculate_batch_correlations entries = calculate_batch_correlations entries) ∧
    (∀ (data : List ℝ) (level : ℝ),
      calculate_confidence_interval data level = calculate_confidence_interval data level) ∧
    (∀ data : List ℚ, calculate_statistical_summary data = calculate_statistical_summary data) ∧
    (∀ (data : List ℚ) (w : ℕ),
      calculate_moving_average data w = calculate_moving_average data w) ∧
    (∀ x y : List ℚ, calculate_trend_analysis x y = calculate_trend_analysis x y) :=
  ⟨correlation_coefficient_symm, fun _ _ h => allPairs_pairObs_perm h,
   fun _ => rfl, fun _ _ => rfl, fun _ => rfl, fun _ _ => rfl, fun _ _ => rfl⟩

end AuditorHelper
